import Mathlib

/-! Live-streaming dashboard: the stats hook and the API client.

A shallow embedding of `web-server/hooks/useStreamStats.js` (the socket message
handler and the three recording commands) and of `web-server/lib/api.js`
(`fetchApi`, `getWebSocketUrl`), followed by the properties proved about them.

JavaScript values are the values JSON text and property reads produce.  The
React state of the hook is a record of its three `useState` cells, and a
handler is a function from the cell contents before an event to the cell
contents after it.  The network (`fetch`) is a parameter of the commands: a
function from the request that was built to the way the returned promise
settles.
-/

namespace LiveStreaming

/-! ## JavaScript values -/

/-- The values `JSON.parse` and property reads can produce.  Numbers are
carried as integers: the program only copies them, tests them for truthiness
and prints them. -/
inductive JSValue where
  | undefined
  | null
  | bool (b : Bool)
  | num (n : Int)
  | str (s : String)
  | arr (items : List JSValue)
  | obj (props : List (String × JSValue))

/-- The own properties of a plain object, as key and value pairs.  A key is
looked up at its first occurrence and no modelled code observes the order. -/
abbrev Props := List (String × JSValue)

/-- An `Error` object: what a `throw` raises and a rejected promise carries. -/
structure JSError where
  name : String
  message : String
deriving DecidableEq, Repr

/-- The expression `new Error(message)` for a message that is already a string. -/
def newError (message : String) : JSError := ⟨"Error", message⟩

/-- The own property `key` of an object, if it has one. -/
def lookupProp : Props → String → Option JSValue
  | [], _ => none
  | (k, v) :: rest, key => if k = key then some v else lookupProp rest key

/-- The assignment `o[key] = v` on a plain object: an existing property gets
the new value, a new property is added. -/
def setProp : Props → String → JSValue → Props
  | [], key, v => [(key, v)]
  | (k, w) :: rest, key, v => if k = key then (k, v) :: rest else (k, w) :: setProp rest key v

/-- The properties `src` written one after the other onto `o`, as the fields
that follow a spread in an object literal are. -/
def assignProps (o : Props) (src : Props) : Props :=
  src.foldl (fun acc kv => setProp acc kv.1 kv.2) o

/-- The own enumerable properties a spread `...v` copies: those of an object,
the indexed elements of an array, the indexed characters of a string, and
nothing for every other value (`undefined` and `null` included). -/
def spreadProps : JSValue → Props
  | .obj props => props
  | .arr items => items.enum.map (fun p => (toString p.1, p.2))
  | .str s => s.data.enum.map (fun p => (toString p.1, JSValue.str (String.singleton p.2)))
  | _ => []

/-- The property read `v.key`, for the keys this program reads (`type`, the
six stat fields, `alerts`, `recordings`, `message`): reading from `undefined`
or `null` throws a `TypeError`, an object gives its own property or
`undefined`, and every other value gives `undefined`, as none of these keys is
an index, `length` or a member of a built-in prototype. -/
def getField (v : JSValue) (key : String) : Except JSError JSValue :=
  match v with
  | .undefined => .error ⟨"TypeError", "Cannot read properties of undefined"⟩
  | .null => .error ⟨"TypeError", "Cannot read properties of null"⟩
  | .obj props => .ok ((lookupProp props key).getD .undefined)
  | _ => .ok .undefined

/-- The comparison `v === s` against a string literal `s`. -/
def strictEqualsString (v : JSValue) (s : String) : Bool :=
  match v with
  | .str t => decide (t = s)
  | _ => false

/-- The truthiness of a value, as `||` tests it. -/
def truthy : JSValue → Bool
  | .undefined => false
  | .null => false
  | .bool b => b
  | .num n => decide (n ≠ 0)
  | .str s => decide (s ≠ "")
  | .arr _ => true
  | .obj _ => true

mutual
/-- The conversion `String(v)` that `new Error(v)` applies to its argument.
An array joins its elements with commas, `null` and `undefined` elements
printing as nothing; an object prints as `[object Object]` unless it has an
own `toString` property, which parsed JSON can only fill with a value that is
not callable, and then the conversion throws. -/
def toStringJS : JSValue → Except JSError String
  | .undefined => .ok "undefined"
  | .null => .ok "null"
  | .bool b => .ok (if b then "true" else "false")
  | .num n => .ok (toString n)
  | .str s => .ok s
  | .arr items => joinItems items
  | .obj props =>
    match lookupProp props "toString" with
    | some _ => .error ⟨"TypeError", "Cannot convert object to primitive value"⟩
    | none => .ok "[object Object]"
/-- The body of `Array.prototype.join` with the separator `,`. -/
def joinItems : List JSValue → Except JSError String
  | [] => .ok ""
  | [x] => joinItem x
  | x :: y :: rest => do
    let a ← joinItem x
    let b ← joinItems (y :: rest)
    pure (a ++ "," ++ b)
/-- One element of a joined array. -/
def joinItem : JSValue → Except JSError String
  | .undefined => .ok ""
  | .null => .ok ""
  | .bool b => .ok (if b then "true" else "false")
  | .num n => .ok (toString n)
  | .str s => .ok s
  | .arr items => joinItems items
  | .obj props =>
    match lookupProp props "toString" with
    | some _ => .error ⟨"TypeError", "Cannot convert object to primitive value"⟩
    | none => .ok "[object Object]"
end

/-- One hexadecimal digit, lower case. -/
def hexDigit (n : Nat) : Char :=
  if n < 10 then Char.ofNat (48 + n) else Char.ofNat (87 + n)

/-- The escape `JSON.stringify` writes for one character of a string. -/
def quoteChar (c : Char) : String :=
  if c = '"' then "\\\""
  else if c = '\\' then "\\\\"
  else if c.toNat = 8 then "\\b"
  else if c.toNat = 9 then "\\t"
  else if c.toNat = 10 then "\\n"
  else if c.toNat = 12 then "\\f"
  else if c.toNat = 13 then "\\r"
  else if c.toNat < 32 then
    String.mk ['\\', 'u', '0', '0', hexDigit (c.toNat / 16), hexDigit (c.toNat % 16)]
  else String.singleton c

/-- A string as `JSON.stringify` writes it: quoted, with its escapes. -/
def quoteJSON (s : String) : String :=
  "\"" ++ String.join (s.data.map quoteChar) ++ "\""

mutual
/-- The call `JSON.stringify(v)`: `none` stands for the result `undefined`. -/
def stringify : JSValue → Option String
  | .undefined => none
  | .null => some "null"
  | .bool b => some (if b then "true" else "false")
  | .num n => some (toString n)
  | .str s => some (quoteJSON s)
  | .arr items => some ("[" ++ ",".intercalate (stringifyItems items) ++ "]")
  | .obj props => some ("\x7b" ++ ",".intercalate (stringifyProps props) ++ "\x7d")
/-- The elements of an array, each as JSON text; `undefined` is written `null`. -/
def stringifyItems : List JSValue → List String
  | [] => []
  | x :: rest => (stringify x).getD "null" :: stringifyItems rest
/-- The members of an object, each as JSON text; a property whose value is
`undefined` is left out. -/
def stringifyProps : List (String × JSValue) → List String
  | [] => []
  | (k, v) :: rest =>
    match stringify v with
    | some text => (quoteJSON k ++ ":" ++ text) :: stringifyProps rest
    | none => stringifyProps rest
end

/-! ## The hook `useStreamStats`: state and message handler -/

/-- The three `useState` cells of `useStreamStats`.  `streamStats` only ever
holds an object literal, so it is kept as that object's properties. -/
structure HookState where
  streamStats : Props
  qualityAlerts : JSValue
  recordings : JSValue

/-- The initial values given to the three `useState` calls. -/
def initialState : HookState where
  streamStats :=
    [("isLive", .bool false), ("duration", .num 0), ("bitrate", .num 0),
     ("resolution", .str ""), ("fps", .num 0), ("quality", .num 100)]
  qualityAlerts := .arr []
  recordings := .arr []

/-- The object literal of the `setStreamStats` updater: a copy of `prev` with
the six stat properties written over it. -/
def statsLiteral (prev : Props)
    (isLive duration bitrate resolution fps quality : JSValue) : Props :=
  assignProps prev
    [("isLive", isLive), ("duration", duration), ("bitrate", bitrate),
     ("resolution", resolution), ("fps", fps), ("quality", quality)]

/-- The statement `if (data.type === 'stats') setStreamStats(prev => ...)`. -/
def statsBranch (data : JSValue) (s : HookState) : Except JSError HookState := do
  let type ← getField data "type"
  if strictEqualsString type "stats" then
    let isLive ← getField data "isLive"
    let duration ← getField data "duration"
    let bitrate ← getField data "bitrate"
    let resolution ← getField data "resolution"
    let fps ← getField data "fps"
    let quality ← getField data "quality"
    pure { s with
      streamStats := statsLiteral s.streamStats isLive duration bitrate resolution fps quality }
  else
    pure s

/-- The statement `if (data.type === 'alerts') setQualityAlerts(data.alerts)`. -/
def alertsBranch (data : JSValue) (s : HookState) : Except JSError HookState := do
  let type ← getField data "type"
  if strictEqualsString type "alerts" then
    let alerts ← getField data "alerts"
    pure { s with qualityAlerts := alerts }
  else
    pure s

/-- The statement `if (data.type === 'recordings') setRecordings(data.recordings)`. -/
def recordingsBranch (data : JSValue) (s : HookState) : Except JSError HookState := do
  let type ← getField data "type"
  if strictEqualsString type "recordings" then
    let recordings ← getField data "recordings"
    pure { s with recordings := recordings }
  else
    pure s

/-- The body of `ws.onmessage` after `JSON.parse`: the three statements in
order.  An error is a throw out of the handler. -/
def onmessageParsed (data : JSValue) (s : HookState) : Except JSError HookState :=
  statsBranch data s >>= alertsBranch data >>= recordingsBranch data

/-- The handler `ws.onmessage`, with `JSON.parse` as a parameter. -/
def onmessage (parse : String → Except JSError JSValue) (eventData : String)
    (s : HookState) : Except JSError HookState :=
  parse eventData >>= fun data => onmessageParsed data s

/-- The state after one parsed message is handled: a handler that throws has
called no setter, so the cells keep their contents. -/
def deliver (s : HookState) (data : JSValue) : HookState :=
  match onmessageParsed data s with
  | .ok t => t
  | .error _ => s

/-- The state after a sequence of parsed messages is handled in order. -/
def deliverAll (s : HookState) (msgs : List JSValue) : HookState :=
  msgs.foldl deliver s

/-! ## The hook `useStreamStats`: the three commands -/

/-- The two arguments of a `fetch` call. -/
structure Request where
  url : String
  init : Props

/-- What the program reads of a `Response`: `ok`, and how `json()` settles. -/
structure Response where
  ok : Bool
  status : Nat
  json : Except JSError JSValue

/-- How the promise returned by `fetch` settles. -/
inductive FetchOutcome where
  | resolved (response : Response)
  | rejected (error : JSError)

/-- Everything observable of one run of a command: the requests it sent, the
`console.error` calls it made (leading text and error), how its own promise settled,
and the hook state it left. -/
structure CommandRun where
  requests : List Request
  logged : List (String × JSError)
  settled : Except JSError Unit
  state : HookState

/-- The shared shape of the three commands: one `fetch`, a throw on a response
that is not ok, and a `catch` that logs under `tag`. -/
def runCommand (request : Request) (failure tag : String)
    (fetch : Request → FetchOutcome) (s : HookState) : CommandRun :=
  let tried : Except JSError Unit :=
    match fetch request with
    | .rejected error => .error error
    | .resolved response => if !response.ok then .error (newError failure) else .ok ()
  match tried with
  | .ok _ => { requests := [request], logged := [], settled := .ok (), state := s }
  | .error error =>
    { requests := [request], logged := [(tag, error)], settled := .ok (), state := s }

/-- The request `startRecording` builds. -/
def startRecordingRequest : Request :=
  ⟨"http://localhost:8000/api/recording/start", [("method", .str "POST")]⟩

/-- The request `stopRecording` builds. -/
def stopRecordingRequest : Request :=
  ⟨"http://localhost:8000/api/recording/stop", [("method", .str "POST")]⟩

/-- The request `createClip` builds. -/
def createClipRequest : Request :=
  ⟨"http://localhost:8000/api/clip/create",
    [("method", .str "POST"),
     ("headers", .obj [("Content-Type", .str "application/json")]),
     ("body", match stringify (.obj [("duration", .num 30)]) with
        | some text => .str text
        | none => .undefined)]⟩

/-- The command `startRecording`. -/
def startRecording (fetch : Request → FetchOutcome) (s : HookState) : CommandRun :=
  runCommand startRecordingRequest "Failed to start recording" "Error starting recording:" fetch s

/-- The command `stopRecording`. -/
def stopRecording (fetch : Request → FetchOutcome) (s : HookState) : CommandRun :=
  runCommand stopRecordingRequest "Failed to stop recording" "Error stopping recording:" fetch s

/-- The command `createClip`.  The function declares no parameter, so the
arguments of a call are not read. -/
def createClip (_args : List JSValue) (fetch : Request → FetchOutcome) (s : HookState) :
    CommandRun :=
  runCommand createClipRequest "Failed to create clip" "Error creating clip:" fetch s

/-! ## The API client `lib/api.js` -/

/-- The expression `value || fallback` for an environment variable, which is a
string or is not set. -/
def envOr (value : Option String) (fallback : String) : String :=
  match value with
  | some text => if text ≠ "" then text else fallback
  | none => fallback

/-- The module constant `API_URL`. -/
def API_URL (apiUrlEnv : Option String) : String :=
  envOr apiUrlEnv "http://localhost:8000"

/-- The request `fetchApi` builds.  `options` is the options object, `none`
when the argument is left out and the default `{}` applies. -/
def fetchApiRequest (apiUrlEnv : Option String) (endpoint : String)
    (options : Option Props) : Request :=
  let opts := options.getD []
  let headers := (lookupProp opts "headers").getD .undefined
  ⟨API_URL apiUrlEnv ++ endpoint,
   setProp opts "headers"
    (.obj (assignProps [("Content-Type", .str "application/json")] (spreadProps headers)))⟩

/-- The function `fetchApi`: the value its promise resolves with, or the error
it rejects with. -/
def fetchApi (apiUrlEnv : Option String) (fetch : Request → FetchOutcome)
    (endpoint : String) (options : Option Props) : Except JSError JSValue :=
  match fetch (fetchApiRequest apiUrlEnv endpoint options) with
  | .rejected error => .error error
  | .resolved res =>
    if !res.ok then do
      let error ← res.json
      let message ← getField error "message"
      let text ← toStringJS (if truthy message then message else .str "An error occurred")
      .error (newError text)
    else
      res.json

/-- The function `getWebSocketUrl`, given `NEXT_PUBLIC_WS_URL` and the
`protocol` and `hostname` of `window.location`. -/
def getWebSocketUrl (wsUrlEnv : Option String) (protocol hostname : String) : String :=
  let wsProtocol := if protocol = "https:" then "wss:" else "ws:"
  envOr wsUrlEnv (wsProtocol ++ "//" ++ hostname ++ ":8000/ws")


/-! ## Reading the specification's words -/

/-- The value of `data.key` when the read does not throw, `undefined` otherwise. -/
def fieldOf (data : JSValue) (key : String) : JSValue :=
  match getField data key with
  | .ok v => v
  | .error _ => .undefined

/-- Whether a parsed message carries the type tag `t`. -/
def hasType (t : String) (data : JSValue) : Bool :=
  match getField data "type" with
  | .ok v => strictEqualsString v t
  | .error _ => false

/-- The last message of a sequence that carries the type tag `t`. -/
def lastOfType (t : String) (msgs : List JSValue) : Option JSValue :=
  (msgs.filter (hasType t)).getLast?

/-- The six stat fields of a message, as an object. -/
def statFields (data : JSValue) : Props :=
  [("isLive", fieldOf data "isLive"), ("duration", fieldOf data "duration"),
   ("bitrate", fieldOf data "bitrate"), ("resolution", fieldOf data "resolution"),
   ("fps", fieldOf data "fps"), ("quality", fieldOf data "quality")]

/-- The names of the six stat fields. -/
def statKeys : List String :=
  ["isLive", "duration", "bitrate", "resolution", "fps", "quality"]

/-- Whether a `fetch` outcome is a failure: a response that is not ok, or a
rejection. -/
def isFailure : FetchOutcome → Bool
  | .resolved response => !response.ok
  | .rejected _ => true

/-- The field-wise overwrite of a message's six stat fields onto a previous
`streamStats` object. -/
def overwriteStats (data : JSValue) (prev : Props) : Props :=
  statsLiteral prev (fieldOf data "isLive") (fieldOf data "duration") (fieldOf data "bitrate")
    (fieldOf data "resolution") (fieldOf data "fps") (fieldOf data "quality")

/-- The state the handler leaves for a message whose `type` reads as `t`. -/
def afterMessage (data : JSValue) (t : JSValue) (s : HookState) : HookState :=
  if strictEqualsString t "stats" then
    { s with
      streamStats :=
        statsLiteral s.streamStats (fieldOf data "isLive") (fieldOf data "duration")
          (fieldOf data "bitrate") (fieldOf data "resolution") (fieldOf data "fps")
          (fieldOf data "quality") }
  else if strictEqualsString t "alerts" then { s with qualityAlerts := fieldOf data "alerts" }
  else if strictEqualsString t "recordings" then { s with recordings := fieldOf data "recordings" }
  else s

/-- The message of the specification's stats scenario. -/
def scenarioStats : JSValue :=
  .obj [("type", .str "stats"), ("isLive", .bool true), ("duration", .num 5),
    ("bitrate", .num 2500), ("resolution", .str "1920x1080"), ("fps", .num 30),
    ("quality", .num 95)]

/-- A message of type `alerts` with the given payload. -/
def alertsMessage (payload : JSValue) : JSValue :=
  .obj [("type", .str "alerts"), ("alerts", payload)]

/-- A message of type `recordings` with the given payload. -/
def recordingsMessage (payload : JSValue) : JSValue :=
  .obj [("type", .str "recordings"), ("recordings", payload)]

/-- The response of the specification's failure scenario: HTTP 500 with a
body whose `message` is `disk full`. -/
def diskFullResponse : Response :=
  ⟨false, 500, .ok (.obj [("message", .str "disk full")])⟩

/-- A failure response whose body carries an empty `message`. -/
def emptyMessageResponse : Response :=
  ⟨false, 500, .ok (.obj [("message", .str "")])⟩

/-! ## Properties of objects -/

theorem lookupProp_setProp_self (o : Props) (key : String) (v : JSValue) :
    lookupProp (setProp o key v) key = some v := by
  induction o with
  | nil => simp [setProp, lookupProp]
  | cons p rest ih =>
    obtain ⟨k, w⟩ := p
    by_cases h : k = key
    · simp [setProp, lookupProp, h]
    · simp [setProp, lookupProp, h, ih]

theorem lookupProp_setProp_other (o : Props) (key other : String) (v : JSValue)
    (h : key ≠ other) : lookupProp (setProp o key v) other = lookupProp o other := by
  induction o with
  | nil => simp [setProp, lookupProp, h]
  | cons p rest ih =>
    obtain ⟨k, w⟩ := p
    by_cases hk : k = key
    · subst hk
      simp [setProp, lookupProp, h]
    · by_cases ho : k = other
      · subst ho
        simp [setProp, lookupProp, hk]
      · simp [setProp, lookupProp, hk, ho, ih]

theorem lookupProp_statsLiteral_other (prev : Props) (a b c d e f : JSValue) (key : String)
    (h : key ∉ statKeys) :
    lookupProp (statsLiteral prev a b c d e f) key = lookupProp prev key := by
  simp only [statKeys, List.mem_cons, List.mem_singleton, List.not_mem_nil, or_false,
    not_or] at h
  obtain ⟨h1, h2, h3, h4, h5, h6⟩ := h
  simp only [statsLiteral, assignProps, List.foldl_cons, List.foldl_nil]
  rw [lookupProp_setProp_other _ _ _ _ (Ne.symm h6), lookupProp_setProp_other _ _ _ _ (Ne.symm h5),
    lookupProp_setProp_other _ _ _ _ (Ne.symm h4), lookupProp_setProp_other _ _ _ _ (Ne.symm h3),
    lookupProp_setProp_other _ _ _ _ (Ne.symm h2), lookupProp_setProp_other _ _ _ _ (Ne.symm h1)]

theorem lookupProp_statsLiteral (prev : Props) (a b c d e f : JSValue) :
    lookupProp (statsLiteral prev a b c d e f) "isLive" = some a ∧
    lookupProp (statsLiteral prev a b c d e f) "duration" = some b ∧
    lookupProp (statsLiteral prev a b c d e f) "bitrate" = some c ∧
    lookupProp (statsLiteral prev a b c d e f) "resolution" = some d ∧
    lookupProp (statsLiteral prev a b c d e f) "fps" = some e ∧
    lookupProp (statsLiteral prev a b c d e f) "quality" = some f := by
  simp only [statsLiteral, assignProps, List.foldl_cons, List.foldl_nil]
  refine ⟨?_, ?_, ?_, ?_, ?_, ?_⟩
  · rw [lookupProp_setProp_other _ _ _ _ (by decide), lookupProp_setProp_other _ _ _ _ (by decide),
      lookupProp_setProp_other _ _ _ _ (by decide), lookupProp_setProp_other _ _ _ _ (by decide),
      lookupProp_setProp_other _ _ _ _ (by decide), lookupProp_setProp_self]
  · rw [lookupProp_setProp_other _ _ _ _ (by decide), lookupProp_setProp_other _ _ _ _ (by decide),
      lookupProp_setProp_other _ _ _ _ (by decide), lookupProp_setProp_other _ _ _ _ (by decide),
      lookupProp_setProp_self]
  · rw [lookupProp_setProp_other _ _ _ _ (by decide), lookupProp_setProp_other _ _ _ _ (by decide),
      lookupProp_setProp_other _ _ _ _ (by decide), lookupProp_setProp_self]
  · rw [lookupProp_setProp_other _ _ _ _ (by decide), lookupProp_setProp_other _ _ _ _ (by decide),
      lookupProp_setProp_self]
  · rw [lookupProp_setProp_other _ _ _ _ (by decide), lookupProp_setProp_self]
  · rw [lookupProp_setProp_self]

/-- Writing the six stat fields over an object that has exactly those six
properties leaves exactly the six new values. -/
theorem statsLiteral_sixFields (a0 b0 c0 d0 e0 f0 a b c d e f : JSValue) :
    statsLiteral
      [("isLive", a0), ("duration", b0), ("bitrate", c0), ("resolution", d0), ("fps", e0),
       ("quality", f0)] a b c d e f =
      [("isLive", a), ("duration", b), ("bitrate", c), ("resolution", d), ("fps", e),
       ("quality", f)] := by
  simp [statsLiteral, assignProps, setProp]

/-! ## Properties of the message handler -/

/-- Once one property read of a value succeeded, every read of it succeeds. -/
theorem getField_eq_fieldOf (data : JSValue) (t : JSValue) (key : String)
    (h : getField data "type" = .ok t) : getField data key = .ok (fieldOf data key) := by
  cases data <;> simp [getField, fieldOf] at h ⊢

theorem onmessageParsed_of_type (data : JSValue) (t : JSValue) (s : HookState)
    (h : getField data "type" = .ok t) :
    onmessageParsed data s = .ok (afterMessage data t s) := by
  have hf : ∀ key, getField data key = .ok (fieldOf data key) :=
    fun key => getField_eq_fieldOf data t key h
  have ht : fieldOf data "type" = t := by
    have := hf "type"
    rw [h] at this
    exact (Except.ok.inj this).symm
  subst ht
  cases t : fieldOf data "type" with
  | str tag =>
    by_cases h1 : tag = "stats"
    · subst h1
      simp [onmessageParsed, statsBranch, alertsBranch, recordingsBranch, afterMessage, hf, t,
        strictEqualsString, bind, Except.bind, pure, Except.pure]
    · by_cases h2 : tag = "alerts"
      · subst h2
        simp [onmessageParsed, statsBranch, alertsBranch, recordingsBranch, afterMessage, hf, t,
          strictEqualsString, bind, Except.bind, pure, Except.pure]
      · by_cases h3 : tag = "recordings"
        · subst h3
          simp [onmessageParsed, statsBranch, alertsBranch, recordingsBranch, afterMessage, hf, t,
            strictEqualsString, bind, Except.bind, pure, Except.pure]
        · simp [onmessageParsed, statsBranch, alertsBranch, recordingsBranch, afterMessage, hf, t,
            strictEqualsString, bind, Except.bind, pure, Except.pure, h1, h2, h3]
  | _ =>
    simp [onmessageParsed, statsBranch, alertsBranch, recordingsBranch, afterMessage, hf, t,
      strictEqualsString, bind, Except.bind, pure, Except.pure]

theorem onmessageParsed_of_throw (data : JSValue) (e : JSError) (s : HookState)
    (h : getField data "type" = .error e) : onmessageParsed data s = .error e := by
  simp [onmessageParsed, statsBranch, h, bind, Except.bind]

theorem deliver_of_type (data : JSValue) (t : JSValue) (s : HookState)
    (h : getField data "type" = .ok t) : deliver s data = afterMessage data t s := by
  simp [deliver, onmessageParsed_of_type data t s h]

theorem deliver_of_throw (data : JSValue) (e : JSError) (s : HookState)
    (h : getField data "type" = .error e) : deliver s data = s := by
  simp [deliver, onmessageParsed_of_throw data e s h]

theorem deliverAll_append (s : HookState) (msgs : List JSValue) (m : JSValue) :
    deliverAll s (msgs ++ [m]) = deliver (deliverAll s msgs) m := by
  simp [deliverAll, List.foldl_append]

theorem lastOfType_append (t : String) (msgs : List JSValue) (m : JSValue) :
    lastOfType t (msgs ++ [m]) = if hasType t m then some m else lastOfType t msgs := by
  by_cases h : hasType t m = true
  · simp [lastOfType, List.filter_append, h]
  · simp [lastOfType, List.filter_append, h]

/-- The three cells after a message, by the type tags the message carries. -/
theorem deliver_cells (s : HookState) (m : JSValue) :
    (deliver s m).streamStats =
        (if hasType "stats" m then overwriteStats m s.streamStats else s.streamStats) ∧
      (deliver s m).qualityAlerts =
        (if hasType "alerts" m then fieldOf m "alerts" else s.qualityAlerts) ∧
      (deliver s m).recordings =
        (if hasType "recordings" m then fieldOf m "recordings" else s.recordings) := by
  cases h : getField m "type" with
  | error e => simp [deliver_of_throw m e s h, hasType, h]
  | ok t =>
    rw [deliver_of_type m t s h]
    cases t with
    | str tag =>
      by_cases h1 : tag = "stats"
      · subst h1
        simp [afterMessage, hasType, h, strictEqualsString, overwriteStats]
      · by_cases h2 : tag = "alerts"
        · subst h2
          simp [afterMessage, hasType, h, strictEqualsString]
        · by_cases h3 : tag = "recordings"
          · subst h3
            simp [afterMessage, hasType, h, strictEqualsString]
          · simp [afterMessage, hasType, h, strictEqualsString, h1, h2, h3]
    | _ => simp [afterMessage, hasType, h, strictEqualsString]

/-! ## The claims about the message handler -/

/-- C1: for every prior state and every parsed message of type `stats`, the
handler returns normally with a `streamStats` whose `isLive`, `duration`,
`bitrate`, `resolution`, `fps` and `quality` are the message's fields and
whose every other property keeps its prior value, the other two cells being
untouched; in a sequence of `stats` messages the state after message `k` is
the handler's result on the state after message `k - 1`, its `streamStats`
being the field-wise overwrite of message `k` onto the previous one; and from
the initial state the scenario message yields exactly its six values. -/
theorem stats_message_overwrites_fields :
    (∀ (s : HookState) (data : JSValue), getField data "type" = .ok (.str "stats") →
      ∃ t, onmessageParsed data s = .ok t ∧
        t.streamStats = overwriteStats data s.streamStats ∧
        lookupProp t.streamStats "isLive" = some (fieldOf data "isLive") ∧
        lookupProp t.streamStats "duration" = some (fieldOf data "duration") ∧
        lookupProp t.streamStats "bitrate" = some (fieldOf data "bitrate") ∧
        lookupProp t.streamStats "resolution" = some (fieldOf data "resolution") ∧
        lookupProp t.streamStats "fps" = some (fieldOf data "fps") ∧
        lookupProp t.streamStats "quality" = some (fieldOf data "quality") ∧
        (∀ key, key ∉ statKeys → lookupProp t.streamStats key = lookupProp s.streamStats key) ∧
        t.qualityAlerts = s.qualityAlerts ∧ t.recordings = s.recordings) ∧
    (∀ (s0 : HookState) (msgs : List JSValue),
      (∀ m ∈ msgs, getField m "type" = .ok (.str "stats")) →
      ∀ (k : Nat) (hk : k < msgs.length),
        onmessageParsed (msgs.get ⟨k, hk⟩) (deliverAll s0 (msgs.take k)) =
            .ok (deliverAll s0 (msgs.take (k + 1))) ∧
          (deliverAll s0 (msgs.take (k + 1))).streamStats =
            overwriteStats (msgs.get ⟨k, hk⟩) (deliverAll s0 (msgs.take k)).streamStats) ∧
    onmessageParsed scenarioStats initialState =
      .ok { initialState with
        streamStats :=
          [("isLive", .bool true), ("duration", .num 5), ("bitrate", .num 2500),
           ("resolution", .str "1920x1080"), ("fps", .num 30), ("quality", .num 95)] } := by
  have step : ∀ (s : HookState) (data : JSValue), getField data "type" = .ok (.str "stats") →
      onmessageParsed data s =
        .ok { s with streamStats := overwriteStats data s.streamStats } := by
    intro s data h
    rw [onmessageParsed_of_type data _ s h]
    simp [afterMessage, strictEqualsString, overwriteStats]
  refine ⟨?_, ?_, ?_⟩
  · intro s data h
    refine ⟨_, step s data h, rfl, ?_⟩
    obtain ⟨h1, h2, h3, h4, h5, h6⟩ :=
      lookupProp_statsLiteral s.streamStats (fieldOf data "isLive") (fieldOf data "duration")
        (fieldOf data "bitrate") (fieldOf data "resolution") (fieldOf data "fps")
        (fieldOf data "quality")
    refine ⟨h1, h2, h3, h4, h5, h6, ?_, rfl, rfl⟩
    intro key hkey
    exact lookupProp_statsLiteral_other _ _ _ _ _ _ _ key hkey
  · intro s0 msgs hall k hk
    have hm : getField (msgs.get ⟨k, hk⟩) "type" = .ok (.str "stats") :=
      hall _ (List.get_mem msgs k hk)
    have htake : msgs.take (k + 1) = msgs.take k ++ [msgs.get ⟨k, hk⟩] := by
      rw [List.take_succ]
      simp [List.getElem?_eq_getElem hk]
    have hd : deliverAll s0 (msgs.take (k + 1)) =
        { deliverAll s0 (msgs.take k) with
          streamStats := overwriteStats (msgs.get ⟨k, hk⟩) (deliverAll s0 (msgs.take k)).streamStats } := by
      rw [htake, deliverAll_append]
      unfold deliver
      rw [step _ _ hm]
    refine ⟨?_, ?_⟩
    · rw [hd]
      exact step _ _ hm
    · rw [hd]
  · rfl

/-- C1, at the scenario message and the initial state. -/
theorem stats_message_overwrites_fields_witness :
    getField scenarioStats "type" = .ok (.str "stats") ∧
      ∃ t, onmessageParsed scenarioStats initialState = .ok t ∧
        lookupProp t.streamStats "isLive" = some (.bool true) ∧
        lookupProp t.streamStats "duration" = some (.num 5) ∧
        lookupProp t.streamStats "bitrate" = some (.num 2500) ∧
        lookupProp t.streamStats "resolution" = some (.str "1920x1080") ∧
        lookupProp t.streamStats "fps" = some (.num 30) ∧
        lookupProp t.streamStats "quality" = some (.num 95) := by
  refine ⟨rfl, ?_⟩
  obtain ⟨t, ht, _, h1, h2, h3, h4, h5, h6, _⟩ :=
    stats_message_overwrites_fields.1 initialState scenarioStats rfl
  exact ⟨t, ht, h1, h2, h3, h4, h5, h6⟩

/-- C2: after any finite sequence of parsed messages handled from the initial
state, `qualityAlerts` is the `alerts` payload of the last message of type
`alerts` (the initial empty list if there is none), `recordings` is the
`recordings` payload of the last message of type `recordings` (the initial
empty list if there is none), and `streamStats` is the object of the six stat
fields of the last message of type `stats` (the initial default if there is
none), whatever the other messages are. -/
theorem last_message_of_each_kind_wins (msgs : List JSValue) :
    (deliverAll initialState msgs).qualityAlerts =
        (match lastOfType "alerts" msgs with
          | some m => fieldOf m "alerts"
          | none => .arr []) ∧
      (deliverAll initialState msgs).recordings =
        (match lastOfType "recordings" msgs with
          | some m => fieldOf m "recordings"
          | none => .arr []) ∧
      (deliverAll initialState msgs).streamStats =
        (match lastOfType "stats" msgs with
          | some m => statFields m
          | none => initialState.streamStats) := by
  induction msgs using List.reverseRecOn with
  | nil => exact ⟨rfl, rfl, rfl⟩
  | append_singleton msgs m ih =>
    obtain ⟨ihA, ihR, ihS⟩ := ih
    obtain ⟨hS, hA, hR⟩ := deliver_cells (deliverAll initialState msgs) m
    rw [deliverAll_append, lastOfType_append, lastOfType_append, lastOfType_append]
    refine ⟨?_, ?_, ?_⟩
    · rw [hA]
      by_cases h : hasType "alerts" m = true
      · simp [h]
      · simp [h, ihA]
    · rw [hR]
      by_cases h : hasType "recordings" m = true
      · simp [h]
      · simp [h, ihR]
    · rw [hS]
      by_cases h : hasType "stats" m = true
      · simp only [h, if_true]
        rw [ihS]
        cases lastOfType "stats" msgs with
        | some prev => exact statsLiteral_sixFields _ _ _ _ _ _ _ _ _ _ _ _
        | none => exact statsLiteral_sixFields _ _ _ _ _ _ _ _ _ _ _ _
      · simp [h, ihS]

/-- C3: for every prior state and every parsed message of type `alerts` with
payload `P`, the handler returns normally and `qualityAlerts` is exactly `P`,
the other two cells being untouched; when the prior collection and `P` are
lists, the result is the list `P` and is neither the prior list followed by
`P` nor `P` followed by the prior list, unless the prior list is empty. -/
theorem alerts_message_replaces_collection (s : HookState) (data P : JSValue)
    (htype : getField data "type" = .ok (.str "alerts"))
    (hpayload : getField data "alerts" = .ok P) :
    ∃ t, onmessageParsed data s = .ok t ∧ t.qualityAlerts = P ∧
      t.streamStats = s.streamStats ∧ t.recordings = s.recordings ∧
      ∀ old new, s.qualityAlerts = .arr old → P = .arr new →
        t.qualityAlerts = .arr new ∧
          (old ≠ [] → t.qualityAlerts ≠ .arr (old ++ new) ∧ t.qualityAlerts ≠ .arr (new ++ old)) := by
  have hP : fieldOf data "alerts" = P := by simp [fieldOf, hpayload]
  refine ⟨{ s with qualityAlerts := P }, ?_, rfl, rfl, rfl, ?_⟩
  · rw [onmessageParsed_of_type data _ s htype]
    simp [afterMessage, strictEqualsString, hP]
  · intro old new _ hnew
    subst hnew
    refine ⟨rfl, fun hold => ⟨?_, ?_⟩⟩
    · intro h
      have hl := congrArg List.length (JSValue.arr.inj h)
      rw [List.length_append] at hl
      have : old.length = 0 := by omega
      exact hold (List.length_eq_zero.mp this)
    · intro h
      have hl := congrArg List.length (JSValue.arr.inj h)
      rw [List.length_append] at hl
      have : old.length = 0 := by omega
      exact hold (List.length_eq_zero.mp this)

/-- C3, at a state holding one alert and a message carrying another. -/
theorem alerts_message_replaces_collection_witness :
    ∃ t, onmessageParsed (alertsMessage (.arr [.str "bitrate low"]))
        { initialState with qualityAlerts := .arr [.str "frames dropped"] } = .ok t ∧
      t.qualityAlerts = .arr [.str "bitrate low"] := by
  obtain ⟨t, ht, hq, _⟩ :=
    alerts_message_replaces_collection
      { initialState with qualityAlerts := .arr [.str "frames dropped"] }
      (alertsMessage (.arr [.str "bitrate low"])) (.arr [.str "bitrate low"]) rfl rfl
  exact ⟨t, ht, hq⟩

/-- C4: for every prior state and every parsed message of type `recordings`
with payload `P`, the handler returns normally and `recordings` is exactly
`P`, the other two cells being untouched; and two such messages handled
back-to-back with payloads `[A]` then `[A, B]` leave `recordings` equal to
`[A, B]`. -/
theorem recordings_message_replaces_collection :
    (∀ (s : HookState) (data P : JSValue),
      getField data "type" = .ok (.str "recordings") →
      getField data "recordings" = .ok P →
      onmessageParsed data s = .ok { s with recordings := P }) ∧
    (∀ (s : HookState) (A B : JSValue),
      (deliverAll s [recordingsMessage (.arr [A]), recordingsMessage (.arr [A, B])]).recordings =
        .arr [A, B]) := by
  have step : ∀ (s : HookState) (data P : JSValue),
      getField data "type" = .ok (.str "recordings") →
      getField data "recordings" = .ok P →
      onmessageParsed data s = .ok { s with recordings := P } := by
    intro s data P htype hpayload
    have hP : fieldOf data "recordings" = P := by simp [fieldOf, hpayload]
    rw [onmessageParsed_of_type data _ s htype]
    simp [afterMessage, strictEqualsString, hP]
  refine ⟨step, ?_⟩
  intro s A B
  simp only [deliverAll, List.foldl_cons, List.foldl_nil]
  unfold deliver
  rw [step s (recordingsMessage (.arr [A])) (.arr [A]) rfl rfl]
  simp only []
  rw [step _ (recordingsMessage (.arr [A, B])) (.arr [A, B]) rfl rfl]

/-- C4, at the initial state and a message carrying two recordings. -/
theorem recordings_message_replaces_collection_witness :
    onmessageParsed (recordingsMessage (.arr [.str "rec-1.mp4", .str "rec-2.mp4"])) initialState =
      .ok { initialState with recordings := .arr [.str "rec-1.mp4", .str "rec-2.mp4"] } :=
  recordings_message_replaces_collection.1 initialState
    (recordingsMessage (.arr [.str "rec-1.mp4", .str "rec-2.mp4"]))
    (.arr [.str "rec-1.mp4", .str "rec-2.mp4"]) rfl rfl

/-- C5: for every prior state and every parsed message whose `type` reads as
a value that is none of `stats`, `alerts` and `recordings` (a message object
in particular, whatever other properties it carries), the handler returns
normally and leaves `streamStats`, `qualityAlerts` and `recordings` as they
were. -/
theorem unknown_type_leaves_state (s : HookState) (data t : JSValue)
    (htype : getField data "type" = .ok t)
    (hstats : t ≠ .str "stats") (halerts : t ≠ .str "alerts")
    (hrecordings : t ≠ .str "recordings") :
    onmessageParsed data s = .ok s := by
  rw [onmessageParsed_of_type data t s htype]
  cases t with
  | str tag =>
    have h1 : tag ≠ "stats" := fun h => hstats (by rw [h])
    have h2 : tag ≠ "alerts" := fun h => halerts (by rw [h])
    have h3 : tag ≠ "recordings" := fun h => hrecordings (by rw [h])
    simp [afterMessage, strictEqualsString, h1, h2, h3]
  | _ => simp [afterMessage, strictEqualsString]

/-- C5, at a message of an unknown type that carries properties named
`isLive`, `alerts` and `recordings`. -/
theorem unknown_type_leaves_state_witness :
    onmessageParsed
        (.obj [("type", .str "ping"), ("isLive", .bool true), ("alerts", .arr [.str "x"]),
          ("recordings", .arr [.str "y"])]) initialState = .ok initialState :=
  unknown_type_leaves_state initialState
    (.obj [("type", .str "ping"), ("isLive", .bool true), ("alerts", .arr [.str "x"]),
      ("recordings", .arr [.str "y"])]) (.str "ping") rfl
    (fun h => absurd (JSValue.str.inj h) (by decide))
    (fun h => absurd (JSValue.str.inj h) (by decide))
    (fun h => absurd (JSValue.str.inj h) (by decide))

/-! ## The claims about the three commands -/

/-- What one run of the shared command shape leaves, by the outcome of `fetch`. -/
theorem runCommand_run (request : Request) (failure tag : String)
    (fetch : Request → FetchOutcome) (s : HookState) :
    (runCommand request failure tag fetch s).requests = [request] ∧
      (runCommand request failure tag fetch s).settled = .ok () ∧
      (runCommand request failure tag fetch s).state = s ∧
      (runCommand request failure tag fetch s).logged =
        (match fetch request with
          | .rejected error => [(tag, error)]
          | .resolved response => if response.ok then [] else [(tag, newError failure)]) := by
  unfold runCommand
  cases h : fetch request with
  | rejected error => simp
  | resolved response =>
    cases hok : response.ok <;> simp [hok]

/-- C6: whatever arguments `createClip` is called with, the one request it
builds is a POST to `http://localhost:8000/api/clip/create` with a JSON
content type and the body `JSON.stringify` gives for the object whose only
property is `duration` with value 30; the request is the same for any two
argument lists. -/
theorem createClip_request_is_fixed (args other : List JSValue)
    (fetch : Request → FetchOutcome) (s : HookState) :
    (createClip args fetch s).requests =
        [⟨"http://localhost:8000/api/clip/create",
          [("method", .str "POST"),
           ("headers", .obj [("Content-Type", .str "application/json")]),
           ("body", .str "\x7b\"duration\":30\x7d")]⟩] ∧
      stringify (.obj [("duration", .num 30)]) = some "\x7b\"duration\":30\x7d" ∧
      (createClip args fetch s).requests = (createClip other fetch s).requests := by
  refine ⟨?_, rfl, rfl⟩
  rw [createClip, (runCommand_run _ _ _ fetch s).1]
  rfl

/-- C7: for each of `startRecording`, `stopRecording` and `createClip` and
every outcome of `fetch`, the command's promise resolves, the hook state is
left as it was, and the command makes one `console.error` call when the
outcome is a response that is not ok or a rejection, and none when the
response is ok. -/
theorem commands_swallow_failures (args : List JSValue) (fetch : Request → FetchOutcome)
    (s : HookState) :
    ((startRecording fetch s).settled = .ok () ∧ (startRecording fetch s).state = s ∧
      (startRecording fetch s).logged.length =
        (if isFailure (fetch startRecordingRequest) then 1 else 0)) ∧
    ((stopRecording fetch s).settled = .ok () ∧ (stopRecording fetch s).state = s ∧
      (stopRecording fetch s).logged.length =
        (if isFailure (fetch stopRecordingRequest) then 1 else 0)) ∧
    ((createClip args fetch s).settled = .ok () ∧ (createClip args fetch s).state = s ∧
      (createClip args fetch s).logged.length =
        (if isFailure (fetch createClipRequest) then 1 else 0)) := by
  have key : ∀ (request : Request) (failure tag : String),
      (runCommand request failure tag fetch s).settled = .ok () ∧
      (runCommand request failure tag fetch s).state = s ∧
      (runCommand request failure tag fetch s).logged.length =
        (if isFailure (fetch request) then 1 else 0) := by
    intro request failure tag
    obtain ⟨_, h2, h3, h4⟩ := runCommand_run request failure tag fetch s
    refine ⟨h2, h3, ?_⟩
    rw [h4]
    cases h : fetch request with
    | rejected error => simp [isFailure]
    | resolved response => cases hok : response.ok <;> simp [isFailure, hok]
  exact ⟨key _ _ _, key _ _ _, key _ _ _⟩

/-- C8, as stated, fails: when the backend answers `startRecording` with
HTTP 500 and a body whose `message` is `disk full`, no error that the
command logs or rejects with has a message containing `disk full`. -/
theorem startRecording_disk_full_counterexample :
    ¬ ∃ e : JSError,
      ((∃ tag, (tag, e) ∈
          (startRecording (fun _ => .resolved diskFullResponse) initialState).logged) ∨
        (startRecording (fun _ => .resolved diskFullResponse) initialState).settled = .error e) ∧
      "disk full".data <:+: e.message.data := by
  rintro ⟨e, h, hinfix⟩
  have hlogged : (startRecording (fun _ => .resolved diskFullResponse) initialState).logged =
      [("Error starting recording:", newError "Failed to start recording")] := rfl
  have hsettled : (startRecording (fun _ => .resolved diskFullResponse) initialState).settled =
      .ok () := rfl
  rcases h with ⟨tag, hmem⟩ | hrej
  · rw [hlogged, List.mem_singleton] at hmem
    have he : e = newError "Failed to start recording" := (Prod.mk.inj hmem).2
    subst he
    revert hinfix
    decide
  · rw [hsettled] at hrej
    cases hrej

/-- C8, amended: when the backend answers `startRecording` with a response
that is not ok, whatever its body, the command logs exactly one error, the
fixed `Error` with message `Failed to start recording`, its promise resolves,
and the hook state is left as it was. -/
theorem startRecording_logs_fixed_error (fetch : Request → FetchOutcome) (s : HookState)
    (res : Response) (hres : fetch startRecordingRequest = .resolved res)
    (hfail : res.ok = false) :
    (startRecording fetch s).logged =
        [("Error starting recording:", newError "Failed to start recording")] ∧
      (startRecording fetch s).settled = .ok () ∧ (startRecording fetch s).state = s := by
  obtain ⟨_, h2, h3, h4⟩ :=
    runCommand_run startRecordingRequest "Failed to start recording"
      "Error starting recording:" fetch s
  refine ⟨?_, h2, h3⟩
  rw [startRecording, h4, hres]
  simp [hfail]

/-- C8, amended, at the HTTP 500 response whose body carries the message
`disk full`. -/
theorem startRecording_logs_fixed_error_witness :
    (startRecording (fun _ => .resolved diskFullResponse) initialState).logged =
        [("Error starting recording:", newError "Failed to start recording")] ∧
      (startRecording (fun _ => .resolved diskFullResponse) initialState).settled = .ok () ∧
      (startRecording (fun _ => .resolved diskFullResponse) initialState).state = initialState :=
  startRecording_logs_fixed_error (fun _ => .resolved diskFullResponse) initialState
    diskFullResponse rfl rfl

/-! ## The claims about the API client -/

/-- C9, as stated, fails: a failure response whose body is an object
carrying the `message` property `""` makes `fetchApi` fail with an error
whose message is `An error occurred`, which is not the server's message. -/
theorem fetchApi_empty_message_counterexample :
    emptyMessageResponse.ok = false ∧
      emptyMessageResponse.json = .ok (.obj [("message", .str "")]) ∧
      lookupProp [("message", .str "")] "message" = some (.str "") ∧
      fetchApi none (fun _ => .resolved emptyMessageResponse) "/api/recording/start" none =
        .error (newError "An error occurred") ∧
      ¬ ∃ e : JSError,
        fetchApi none (fun _ => .resolved emptyMessageResponse) "/api/recording/start" none =
          .error e ∧ e.message = "" := by
  refine ⟨rfl, rfl, rfl, rfl, ?_⟩
  rintro ⟨e, he, hmsg⟩
  have hrun : fetchApi none (fun _ => .resolved emptyMessageResponse) "/api/recording/start"
      none = .error (newError "An error occurred") := rfl
  rw [hrun] at he
  have := Except.error.inj he
  subst this
  revert hmsg
  decide

/-- C9, amended: for every endpoint, options and response that is not ok and
whose body parses to an object carrying a `message` that is a non-empty
string, `fetchApi` fails with the `Error` whose message is exactly that
string; when the `message` it carries is falsy, the empty string included,
`fetchApi` fails with the `Error` whose message is `An error occurred`; and
for every response that is ok, `fetchApi` settles as `json()` does, so it
returns the parsed body. -/
theorem fetchApi_error_message :
    (∀ (apiUrlEnv : Option String) (fetch : Request → FetchOutcome) (endpoint : String)
        (options : Option Props) (res : Response) (props : Props) (m : String),
      fetch (fetchApiRequest apiUrlEnv endpoint options) = .resolved res →
      res.ok = false → res.json = .ok (.obj props) →
      lookupProp props "message" = some (.str m) → m ≠ "" →
      fetchApi apiUrlEnv fetch endpoint options = .error (newError m)) ∧
    (∀ (apiUrlEnv : Option String) (fetch : Request → FetchOutcome) (endpoint : String)
        (options : Option Props) (res : Response) (props : Props) (v : JSValue),
      fetch (fetchApiRequest apiUrlEnv endpoint options) = .resolved res →
      res.ok = false → res.json = .ok (.obj props) →
      lookupProp props "message" = some v → truthy v = false →
      fetchApi apiUrlEnv fetch endpoint options = .error (newError "An error occurred")) ∧
    (∀ (apiUrlEnv : Option String) (fetch : Request → FetchOutcome) (endpoint : String)
        (options : Option Props) (res : Response),
      fetch (fetchApiRequest apiUrlEnv endpoint options) = .resolved res →
      res.ok = true →
      fetchApi apiUrlEnv fetch endpoint options = res.json ∧
        ∀ body, res.json = .ok body →
          fetchApi apiUrlEnv fetch endpoint options = .ok body) := by
  refine ⟨?_, ?_, ?_⟩
  · intro apiUrlEnv fetch endpoint options res props m hres hok hjson hmsg hne
    simp [fetchApi, hres, hok, hjson, getField, hmsg, truthy, hne, toStringJS, bind,
      Except.bind]
  · intro apiUrlEnv fetch endpoint options res props v hres hok hjson hmsg hfalsy
    simp [fetchApi, hres, hok, hjson, getField, hmsg, hfalsy, toStringJS, bind, Except.bind]
  · intro apiUrlEnv fetch endpoint options res hres hok
    have h : fetchApi apiUrlEnv fetch endpoint options = res.json := by
      simp [fetchApi, hres, hok]
    exact ⟨h, fun body hbody => by rw [h, hbody]⟩

/-- C9, amended, at the HTTP 500 response whose body carries the message
`disk full`. -/
theorem fetchApi_error_message_witness :
    fetchApi none (fun _ => .resolved diskFullResponse) "/api/recording/start" none =
      .error (newError "disk full") :=
  fetchApi_error_message.1 none (fun _ => .resolved diskFullResponse) "/api/recording/start"
    none diskFullResponse [("message", .str "disk full")] "disk full" rfl rfl rfl rfl
    (by decide)

/-- C10: when `NEXT_PUBLIC_WS_URL` is not set or is empty, `getWebSocketUrl`
returns `wss://` followed by the hostname and `:8000/ws` if the page protocol
is `https:`, and `ws://` followed by the hostname and `:8000/ws` for every
other protocol, so the result starts with `wss:` exactly when the protocol is
`https:`; when it is set to a non-empty URL, `getWebSocketUrl` returns that
URL. -/
theorem getWebSocketUrl_resolves (wsUrlEnv : Option String) (protocol hostname : String) :
    ((wsUrlEnv = none ∨ wsUrlEnv = some "") →
      (protocol = "https:" →
        getWebSocketUrl wsUrlEnv protocol hostname = "wss://" ++ hostname ++ ":8000/ws") ∧
      (protocol ≠ "https:" →
        getWebSocketUrl wsUrlEnv protocol hostname = "ws://" ++ hostname ++ ":8000/ws") ∧
      ("wss:".data <+: (getWebSocketUrl wsUrlEnv protocol hostname).data ↔
        protocol = "https:")) ∧
    (∀ url, wsUrlEnv = some url → url ≠ "" →
      getWebSocketUrl wsUrlEnv protocol hostname = url) := by
  have hdefault : (wsUrlEnv = none ∨ wsUrlEnv = some "") →
      getWebSocketUrl wsUrlEnv protocol hostname =
        (if protocol = "https:" then "wss:" else "ws:") ++ "//" ++ hostname ++ ":8000/ws" := by
    rintro (h | h) <;> subst h <;> simp [getWebSocketUrl, envOr]
  have hsecure : "wss:" ++ "//" ++ hostname ++ ":8000/ws" = "wss://" ++ hostname ++ ":8000/ws" := by
    rw [show ("wss:" : String) ++ "//" = "wss://" by decide]
  have hplain : "ws:" ++ "//" ++ hostname ++ ":8000/ws" = "ws://" ++ hostname ++ ":8000/ws" := by
    rw [show ("ws:" : String) ++ "//" = "ws://" by decide]
  refine ⟨fun hunset => ?_, ?_⟩
  · have hd := hdefault hunset
    by_cases hp : protocol = "https:"
    · rw [if_pos hp, hsecure] at hd
      refine ⟨fun _ => hd, fun hne => absurd hp hne, ?_⟩
      rw [hd]
      simp [hp, String.data_append, List.prefix_iff_eq_append]
    · rw [if_neg hp, hplain] at hd
      refine ⟨fun h => absurd h hp, fun _ => hd, ?_⟩
      rw [hd]
      simp [hp, String.data_append]
  · intro url hurl hne
    subst hurl
    simp [getWebSocketUrl, envOr, hne]

/-- C10, at a page loaded over `https:` from `stream.example.org` with no
channel URL configured. -/
theorem getWebSocketUrl_resolves_witness :
    getWebSocketUrl none "https:" "stream.example.org" = "wss://stream.example.org:8000/ws" ∧
      getWebSocketUrl (some "wss://push.example.org/ws") "http:" "stream.example.org" =
        "wss://push.example.org/ws" :=
  ⟨((getWebSocketUrl_resolves none "https:" "stream.example.org").1 (Or.inl rfl)).1 rfl,
    (getWebSocketUrl_resolves (some "wss://push.example.org/ws") "http:"
      "stream.example.org").2 _ rfl (by decide)⟩

end LiveStreaming
